import Mathlib

/-!
Verification of the Meeting-Assistant backend (`backend.py`) against its
natural-language specification.

The development shallowly embeds the deterministic parts of the pipeline:
the tier-2 fallback extractor `local_extract` (including a faithful
backtracking matcher for the concrete regular expressions in
`TASK_PATTERNS` and `DEADLINE_PATTERNS` and the sentence splitter
`re.split(r"(?<=[.!?])\s+", ...)`), the tier-1 JSON key-defaulting step of
`gemini_extract_structured`, the derived-artifact generators (with the
external model call modelled as an explicit parameter), the markdown
report formatter `format_markdown_block`, and the request orchestration
logic of `summarize_meeting` (upload saving, temp-file cleanup,
translation gating, and the fallback diagnostic note).
-/

namespace Backend

/-! ## Basic character and string helpers (Python semantics) -/

/-- Python `\s` on ASCII input: the whitespace characters recognised by
`str.strip`, `str.split` and the `re` module. -/
def isPySpace (c : Char) : Bool :=
  c = ' ' || c = '\t' || c = '\n' || c = '\r' || c = '\x0b' || c = '\x0c'

/-- ASCII lower-casing, as `str.lower` acts on ASCII text. -/
def lowerAscii (c : Char) : Char :=
  if 'A' ≤ c && c ≤ 'Z' then Char.ofNat (c.toNat + 32) else c

/-- `s.lower()` for ASCII strings. -/
def pyLower (s : String) : String := ⟨s.data.map lowerAscii⟩

/-- `n` is a leading segment of `h` (used for `str.startswith` and for
anchored regex-literal matching). -/
def hasPre : List Char → List Char → Bool
  | [], _ => true
  | _ :: _, [] => false
  | a :: n, b :: h => a == b && hasPre n h

/-- Case-insensitive variant of `hasPre` (ASCII). -/
def hasPreCI : List Char → List Char → Bool
  | [], _ => true
  | _ :: _, [] => false
  | a :: n, b :: h => lowerAscii a == lowerAscii b && hasPreCI n h

/-- Python's substring test `n in h`. -/
def occursIn (n : List Char) : List Char → Bool
  | [] => hasPre n []
  | c :: h => hasPre n (c :: h) || occursIn n h

/-- `s.startswith(p)` on strings. -/
def strStarts (p s : String) : Bool := hasPre p.data s.data

/-- `str.strip()` on a character list. -/
def stripChars (l : List Char) : List Char :=
  ((l.dropWhile isPySpace).reverse.dropWhile isPySpace).reverse

/-- `s.strip()` on strings. -/
def stripStr (s : String) : String := ⟨stripChars s.data⟩

/-- `" ".join(l)`. -/
def joinSpace : List String → String
  | [] => ""
  | [x] => x
  | x :: y :: xs => x ++ " " ++ joinSpace (y :: xs)

/-- Worker for `dedupFirst`: `seen` holds the elements already kept. -/
def dedupFirstAux (seen : List String) : List String → List String
  | [] => []
  | x :: xs =>
    if x ∈ seen then dedupFirstAux seen xs
    else x :: dedupFirstAux (x :: seen) xs

/-- `list(dict.fromkeys(l))`: de-duplication keeping the first occurrence
of each element, in first-seen order. -/
def dedupFirst (l : List String) : List String := dedupFirstAux [] l

/-- Concatenation of the images of a list (explicit to keep kernel
reduction simple). -/
def catMap (f : α → List β) : List α → List β
  | [] => []
  | x :: xs => f x ++ catMap f xs

/-! ## A backtracking matcher for the concrete patterns of `backend.py`

The only regex constructs appearing in `TASK_PATTERNS` and
`DEADLINE_PATTERNS` are literals, character classes, greedy `+`/`*` over a
class, the lazy `.+?`, non-capturing alternations, capturing groups, and
the `$` anchor.  The matcher below implements exactly Python's
backtracking preference order for these constructs: alternatives
left-to-right, greedy repetitions longest-first, lazy repetitions
shortest-first, and `re.search` trying start positions left-to-right. -/

/-- The character classes used by the patterns in the source. -/
inductive CharCls where
  | upper | lower | alpha | digit | space | dot
deriving DecidableEq, Repr

def CharCls.check : CharCls → Char → Bool
  | .upper, c => 'A' ≤ c && c ≤ 'Z'
  | .lower, c => 'a' ≤ c && c ≤ 'z'
  | .alpha, c => ('A' ≤ c && c ≤ 'Z') || ('a' ≤ c && c ≤ 'z')
  | .digit, c => '0' ≤ c && c ≤ '9'
  | .space, c => isPySpace c
  | .dot, c => c ≠ '\n'

/-- Regex elements (a pattern is a `List RElem`). -/
inductive RElem where
  | lit (s : List Char)
  | litCI (s : List Char)
  | cls (c : CharCls)
  | plusG (c : CharCls)
  | starG (c : CharCls)
  | plusL (c : CharCls)
  | branch (bs : List (List RElem))
  | gOpen (g : Nat)
  | gClose (g : Nat)
  | eos
deriving Repr

/-- Length of the maximal run of characters of class `c` starting at
position `pos` of `s`. -/
def runLen (c : CharCls) (s : List Char) (pos : Nat) : Nat :=
  ((s.drop pos).takeWhile c.check).length

/-- Recorded capture spans: (group, start, end). -/
abbrev Caps := List (Nat × Nat × Nat)

/-- `[n, n-1, ..., 1]`: trial order for greedy repetition. -/
def descRange : Nat → List Nat
  | 0 => []
  | n + 1 => (n + 1) :: descRange n

/-- `[1, 2, ..., n]`: trial order for lazy repetition. -/
def ascRange : Nat → List Nat
  | 0 => []
  | n + 1 => ascRange n ++ [n + 1]

/-- Match a sequence of elements at position `pos` of `s`, returning the
end position and the captures of the first match in Python's backtracking
preference order.  `fuel` bounds the recursion depth (each call consumes
one unit; the depth needed is bounded by the pattern size). -/
def matchElems : Nat → List Char → List RElem → Nat → Caps →
    List (Nat × Nat) → Option (Nat × Caps)
  | 0, _, _, _, _, _ => none
  | _ + 1, _, [], pos, caps, _ => some (pos, caps)
  | fuel + 1, s, e :: rest, pos, caps, opens =>
    match e with
    | .lit l =>
      if hasPre l (s.drop pos) then
        matchElems fuel s rest (pos + l.length) caps opens
      else none
    | .litCI l =>
      if hasPreCI l (s.drop pos) then
        matchElems fuel s rest (pos + l.length) caps opens
      else none
    | .cls c =>
      match (s.drop pos).head? with
      | some ch =>
        if c.check ch then matchElems fuel s rest (pos + 1) caps opens
        else none
      | none => none
    | .plusG c =>
      (descRange (runLen c s pos)).findSome? fun k =>
        matchElems fuel s rest (pos + k) caps opens
    | .starG c =>
      (descRange (runLen c s pos) ++ [0]).findSome? fun k =>
        matchElems fuel s rest (pos + k) caps opens
    | .plusL c =>
      (ascRange (runLen c s pos)).findSome? fun k =>
        matchElems fuel s rest (pos + k) caps opens
    | .branch bs =>
      bs.findSome? fun b => matchElems fuel s (b ++ rest) pos caps opens
    | .gOpen g => matchElems fuel s rest pos caps ((g, pos) :: opens)
    | .gClose g =>
      match opens.find? (fun p => p.1 == g) with
      | some po => matchElems fuel s rest pos ((g, po.2, pos) :: caps) opens
      | none => none
    | .eos =>
      if pos = s.length then matchElems fuel s rest pos caps opens
      else none

/-- Recursion-depth budget; the patterns of the source need far less. -/
def FUEL : Nat := 1000

/-- `re.search(pat, s)`: leftmost match, returning
(start, end, captures). -/
def reSearch (pat : List RElem) (s : List Char) : Option (Nat × Nat × Caps) :=
  (List.range (s.length + 1)).findSome? fun i =>
    (matchElems FUEL s pat i [] []).map fun r => (i, r.1, r.2)

def pySearch (pat : List RElem) (s : String) : Option (Nat × Nat × Caps) :=
  reSearch pat s.data

/-- Substring `s[st:en]` of a string. -/
def sliceStr (s : String) (st en : Nat) : String :=
  ⟨(s.data.drop st).take (en - st)⟩

/-- `m.group(g)` for a capture list. -/
def groupStr (s : String) (caps : Caps) (g : Nat) : String :=
  match caps.find? (fun c => c.1 == g) with
  | some c => sliceStr s c.2.1 c.2.2
  | none => ""

/-! ## The concrete patterns of `backend.py` -/

/-- Shorthand: the character data of a literal. -/
def lc (s : String) : List Char := s.data

/-- `TASK_PATTERNS` from the source, in declared order:
1. `([A-Z][a-z]+)\s+(?:will|should|needs to|is going to|must|has to)\s+(.+?)(?:\.|$)`
2. `([A-Z][a-z]+)\s*:\s*(?:will|should|needs to|must)\s+(.+?)(?:\.|$)`
3. `([A-Z][a-z]+)\s+(?:assigned|tasked)\s+to\s+(.+?)(?:\.|$)` -/
def TASK_PATTERNS : List (List RElem) :=
  [ [ .gOpen 1, .cls .upper, .plusG .lower, .gClose 1, .plusG .space,
      .branch [[.lit (lc "will")], [.lit (lc "should")], [.lit (lc "needs to")],
               [.lit (lc "is going to")], [.lit (lc "must")], [.lit (lc "has to")]],
      .plusG .space, .gOpen 2, .plusL .dot, .gClose 2,
      .branch [[.lit (lc ".")], [.eos]] ]
  , [ .gOpen 1, .cls .upper, .plusG .lower, .gClose 1, .starG .space,
      .lit (lc ":"), .starG .space,
      .branch [[.lit (lc "will")], [.lit (lc "should")], [.lit (lc "needs to")],
               [.lit (lc "must")]],
      .plusG .space, .gOpen 2, .plusL .dot, .gClose 2,
      .branch [[.lit (lc ".")], [.eos]] ]
  , [ .gOpen 1, .cls .upper, .plusG .lower, .gClose 1, .plusG .space,
      .branch [[.lit (lc "assigned")], [.lit (lc "tasked")]],
      .plusG .space, .lit (lc "to"), .plusG .space, .gOpen 2, .plusL .dot,
      .gClose 2, .branch [[.lit (lc ".")], [.eos]] ] ]

/-- `DEADLINE_PATTERNS` from the source (matched with `re.IGNORECASE`),
in declared order. -/
def DEADLINE_PATTERNS : List (List RElem) :=
  [ [ .litCI (lc "by"), .plusG .space, .plusG .alpha, .starG .space, .starG .digit ]
  , [ .litCI (lc "by"), .plusG .space, .litCI (lc "end of week") ]
  , [ .litCI (lc "by"), .plusG .space, .litCI (lc "tomorrow") ]
  , [ .litCI (lc "by"), .plusG .space, .litCI (lc "next week") ]
  , [ .litCI (lc "by"), .plusG .space, .litCI (lc "Friday") ]
  , [ .litCI (lc "by"), .plusG .space, .litCI (lc "Monday") ]
  , [ .litCI (lc "by"), .plusG .space, .litCI (lc "Thursday") ]
  , [ .litCI (lc "by"), .plusG .space, .litCI (lc "Sunday") ]
  , [ .litCI (lc "before"), .plusG .space, .litCI (lc "next"), .plusG .space,
      .litCI (lc "meeting") ] ]

/-! ## Sentence splitting: `re.split(r"(?<=[.!?])\s+", text)` -/

/-- Terminal punctuation recognised by the splitter's lookbehind. -/
def isPunct (c : Char) : Bool := c = '.' || c = '!' || c = '?'

/-- State machine for the splitter.  `acc` is the current piece
(reversed); `prevPunct` records whether the previous character was
terminal punctuation; `inRun` records that we are inside a separator
whitespace run. -/
def splitAux : List Char → List Char → Bool → Bool → List (List Char)
  | [], acc, _, _ => [acc.reverse]
  | c :: cs, acc, prevPunct, inRun =>
    if inRun then
      if isPySpace c then splitAux cs acc prevPunct true
      else splitAux cs [c] (isPunct c) false
    else if prevPunct && isPySpace c then
      acc.reverse :: splitAux cs [] false true
    else splitAux cs (c :: acc) (isPunct c) false

/-- `re.split(r"(?<=[.!?])\s+", text)`: split at maximal whitespace runs
directly preceded by `.`, `!` or `?`. -/
def splitSentences (text : String) : List String :=
  (splitAux text.data [] false false).map fun cs => ⟨cs⟩

/-! ## The tier-2 fallback extractor `local_extract` -/

/-- The `Task` dictionaries produced by `local_extract`. -/
structure Task where
  speaker : String
  assignee : String
  task : String
  deadline : Option String
  source : String
deriving DecidableEq, Repr

/-- The five-key structured record produced by either extraction tier. -/
structure StructuredRecord where
  summary : String
  action_points : List String
  tasks : List Task
  deadlines : List String
  speakers : List String
deriving DecidableEq, Repr

/-- The keyword list of the "rough action point detector". -/
def ACTION_KEYWORDS : List String :=
  ["should", "need to", "must", "will", "targeting", "aim to"]

/-- `any(k in sl for k in [...])` on the lower-cased sentence. -/
def isActionPoint (s : String) : Bool :=
  ACTION_KEYWORDS.any fun k => occursIn k.data (pyLower s).data

/-- The inner deadline loop during task matching: first matching deadline
pattern wins (the loop `break`s). -/
def firstDeadline (s : String) : Option String :=
  DEADLINE_PATTERNS.findSome? fun dp =>
    (pySearch dp s).map fun r => sliceStr s r.1 r.2.1

/-- The sentence-level deadline scan ("Deadlines even if no tasks"): every
matching pattern contributes its match, with no short-circuit. -/
def sentenceDeadlines (s : String) : List String :=
  DEADLINE_PATTERNS.filterMap fun dp =>
    (pySearch dp s).map fun r => sliceStr s r.1 r.2.1

/-- The task built from a match of one task pattern on sentence `s`. -/
def taskOfMatch (s : String) (caps : Caps) : Task :=
  { speaker := groupStr s caps 1
  , assignee := groupStr s caps 1
  , task := stripStr (groupStr s caps 2)
  , deadline := firstDeadline s
  , source := s }

/-- All tasks emitted for one sentence: the pattern loop has no `break`,
so every matching pattern yields a task. -/
def sentenceTasks (s : String) : List Task :=
  TASK_PATTERNS.filterMap fun pat =>
    (pySearch pat s).map fun r => taskOfMatch s r.2.2

/-- The deadline strings appended while matching task patterns on one
sentence (one per matching pattern whose inner deadline scan succeeds). -/
def sentenceTaskDeadlines (s : String) : List String :=
  TASK_PATTERNS.filterMap fun pat =>
    (pySearch pat s).bind fun _ => firstDeadline s

/-- `local_extract` from the source: sentence split, first-three-sentence
summary with sentinel, keyword action points, task-pattern matching with
per-task deadlines, the independent sentence-level deadline scan, and
final `dict.fromkeys` de-duplication.  `speakers` is always empty. -/
def local_extract (text : String) : StructuredRecord :=
  let sentences := splitSentences text
  let summary := stripStr (joinSpace (sentences.take 3))
  { summary := if summary = "" then "No summary available." else summary
  , action_points := dedupFirst (sentences.filter isActionPoint)
  , tasks := catMap sentenceTasks sentences
  , deadlines :=
      dedupFirst (catMap (fun s => sentenceTaskDeadlines s ++ sentenceDeadlines s) sentences)
  , speakers := [] }

/-! ## Tier-1: `gemini_extract_structured`

The model call and `json.loads` are external; the code of the repository
that remains is the bracket-scan isolating the JSON candidate and the
`setdefault` pass applied to the parsed object.  The parsed JSON object is
modelled as an association list in insertion order (its keys are distinct,
as for a Python `dict`). -/

/-- JSON values, as produced by `json.loads`. -/
inductive JValue where
  | str (s : String)
  | num (n : Int)
  | bool (b : Bool)
  | null
  | arr (xs : List JValue)
  | obj (fields : List (String × JValue))
deriving Repr

/-- A parsed JSON object: association list in insertion order. -/
abbrev JObj := List (String × JValue)

/-- `content.find(c)`: index of the first occurrence. -/
def pyFindIdx (c : Char) : List Char → Option Nat
  | [] => none
  | x :: xs => if x = c then some 0 else (pyFindIdx c xs).map (· + 1)

/-- `content.rfind(c)`: index of the last occurrence. -/
def pyRFindIdx (c : Char) (l : List Char) : Option Nat :=
  (pyFindIdx c l.reverse).map fun i => l.length - 1 - i

/-- The bracket scan of `gemini_extract_structured`:
`content[content.find("\x7b") : content.rfind("\x7d") + 1]`, or `none` when
either bracket is missing (the code then raises, a tier-1 failure). -/
def extract_json_candidate (content : String) : Option String :=
  match pyFindIdx '{' content.data, pyRFindIdx '}' content.data with
  | some st, some en => some (sliceStr content st (en + 1))
  | _, _ => none

/-- `d.setdefault(k, v)` on a Python dict in insertion order: a missing
key is appended at the end, an existing key is left untouched. -/
def setdefault (d : JObj) (k : String) (v : JValue) : JObj :=
  if d.any (fun kv => kv.1 = k) then d else d ++ [(k, v)]

/-- `kv.1 = k` membership of a key. -/
def hasKey (d : JObj) (k : String) : Bool := d.any (fun kv => kv.1 = k)

/-- Dict lookup `d[k]`. -/
def lookupKey (d : JObj) (k : String) : Option JValue :=
  (d.find? (fun kv => kv.1 = k)).map (·.2)

/-- The "Sanity defaults" pass of `gemini_extract_structured`, applied to
the parsed JSON object. -/
def gemini_extract_structured_defaults (parsed : JObj) : JObj :=
  setdefault
    (setdefault
      (setdefault
        (setdefault
          (setdefault parsed "summary" (.str "No summary available."))
          "action_points" (.arr []))
        "tasks" (.arr []))
      "deadlines" (.arr []))
    "speakers" (.arr [])

/-- The five keys of the extraction contract. -/
def FIVE_KEYS : List String :=
  ["summary", "action_points", "tasks", "deadlines", "speakers"]

/-- The default supplied for each of the five keys. -/
def defaultFor (k : String) : JValue :=
  if k = "summary" then .str "No summary available." else .arr []

/-! ## Derived-artifact generators

Each generator is one round-trip against the external generation model.
The external state is made explicit: `modelAvailable` models
`GEMINI_MODEL is None`, and the call outcome is an `Except`/`Option`
parameter (`.error e` / `none` for a raised exception, with `resp.text or
""` already folded into the success string). -/

/-- `gemini_generate_followup_email`: returns the stripped model text on
success, and a sentinel string on either failure mode. -/
def gemini_generate_followup_email (modelAvailable : Bool)
    (callResult : Except String String) : String :=
  if modelAvailable = false then "Gemini not available for email generation."
  else
    match callResult with
    | .ok t => stripStr t
    | .error e => "Email generation failed: " ++ e

/-- `gemini_generate_whatsapp`: same shape as the email generator. -/
def gemini_generate_whatsapp (modelAvailable : Bool)
    (callResult : Except String String) : String :=
  if modelAvailable = false then "Gemini not available for WhatsApp summary."
  else
    match callResult with
    | .ok t => stripStr t
    | .error e => "WhatsApp summary failed: " ++ e

/-- `gemini_translate_summary`: returns the original summary when the
model is unavailable, when `target_lang` is falsy, when the call raises,
or when the stripped result is empty. -/
def gemini_translate_summary (summary target_lang : String)
    (modelAvailable : Bool) (callResult : Option String) : String :=
  if modelAvailable = false then summary
  else if target_lang = "" then summary
  else
    match callResult with
    | none => summary
    | some r => if stripStr r = "" then summary else stripStr r

/-! ## The report formatter `format_markdown_block` -/

/-- A task dictionary as consumed by the formatter (`t.get(...)` may miss
any key, hence the `Option`s). -/
structure TaskDict where
  speaker : Option String
  assignee : Option String
  task : Option String
  deadline : Option String
deriving DecidableEq, Repr

/-- `a or b` for an optional string under Python truthiness. -/
def pyOrS : Option String → String → String
  | some s, b => if s = "" then b else s
  | none, b => b

/-- The `data` dict consumed by the formatter (`data.get` may miss any
key). -/
structure FormatData where
  summary : Option String
  action_points : Option (List String)
  tasks : Option (List TaskDict)
  deadlines : Option (List String)
deriving Repr

/-- One task line of the Tasks section. -/
def renderTaskLine (t : TaskDict) : String :=
  let assignee := pyOrS t.assignee (pyOrS t.speaker "Unknown")
  let task_text := pyOrS t.task ""
  let deadline := pyOrS t.deadline "No deadline"
  "  - **" ++ assignee ++ "** → " ++ task_text ++ " _(Deadline: " ++ deadline ++ ")_\n"

/-- Concatenation of a rendered list (the `for` loops of the
formatter). -/
def renderLines (f : α → String) : List α → String
  | [] => ""
  | x :: xs => f x ++ renderLines f xs

/-- `format_markdown_block` from the source, line for line.  The email
body is included only when `followup_email` is truthy and does not start
(case-insensitively) with "email generation failed"; the WhatsApp recap
only when `whatsapp_msg` is truthy and does not start with "whatsapp
summary failed". -/
def format_markdown_block (data : FormatData)
    (followup_email whatsapp_msg : String) : String :=
  let summary := data.summary.getD "No summary available."
  let action_points := (data.action_points.getD [])
  let tasks := (data.tasks.getD [])
  let deadlines := (data.deadlines.getD [])
  "- **Summary**\n" ++ "  - " ++ summary ++ "\n\n" ++
  "- **Action points**\n" ++
  (if action_points.isEmpty then "  - None detected.\n"
   else renderLines (fun a => "  - " ++ a ++ "\n") action_points) ++
  "\n" ++
  "- **Tasks assigned to specific people**\n" ++
  (if tasks.isEmpty then "  - No explicit tasks found.\n"
   else renderLines renderTaskLine tasks) ++
  "\n" ++
  "- **Deadlines**\n" ++
  (if deadlines.isEmpty then "  - None mentioned.\n"
   else renderLines (fun d => "  - " ++ d ++ "\n") deadlines) ++
  "\n" ++
  "- **Follow-up emails**\n" ++
  (if followup_email ≠ "" &&
      !(strStarts "email generation failed" (pyLower followup_email)) then
    "  - Draft ready below:\n\n" ++ "```text\n" ++ stripStr followup_email ++
      "\n" ++ "```\n"
   else "  - Could not generate email.\n") ++
  "\n" ++
  "⿤ **Sends it to**\n" ++
  "- **WhatsApp** — copy & paste this recap:\n\n" ++
  (if whatsapp_msg ≠ "" &&
      !(strStarts "whatsapp summary failed" (pyLower whatsapp_msg)) then
    "```text\n" ++ stripStr whatsapp_msg ++ "\n" ++ "```\n"
   else "_No WhatsApp summary generated._\n") ++
  "\n" ++
  "- **Email** — use the follow-up email draft above to send to participants.\n"

/-! ## The request orchestrator `summarize_meeting`

The handler's deterministic control flow is modelled in pieces: the
upload-save phase (which performs no size check), the temp-file lifecycle
over the possible exit paths, the translation gating, and the diagnostic
`note` produced by the two-tier extraction step. -/

/-- `MAX_UPLOAD_BYTES = 2 * 1024 * 1024 * 1024` from the source ("Upload
limit (2GB)").  The constant is never referenced again in the source. -/
def MAX_UPLOAD_BYTES : Nat := 2 * 1024 * 1024 * 1024

/-- Outcome of the pre-pipeline phase of `summarize_meeting`. -/
inductive UploadOutcome where
  | proceed (savedBytes : Nat)
  | rejected (status : Nat) (detail : String)
deriving DecidableEq, Repr

/-- The upload-save phase of `summarize_meeting`: the chunk loop
(`await audio.read(1024 * 1024)`, each chunk at most 2^20 bytes) writes
every chunk to the temp file, then the only check performed is
`tmp_path.exists()`; the total size is never compared with
`MAX_UPLOAD_BYTES`. -/
def summarize_upload_phase (chunks : List Nat) (tmpExists : Bool) :
    UploadOutcome :=
  let saved := chunks.foldl (· + ·) 0
  if tmpExists = false then .rejected 400 "Failed to save uploaded file."
  else .proceed saved

/-- Which of the two temp files currently exist. -/
structure FState where
  tmp : Bool
  wav : Bool
deriving DecidableEq, Repr

/-- Whether a stage completes or raises. -/
inductive Outcome where
  | ok
  | exn
deriving DecidableEq, Repr

/-- One request's relevant nondeterminism: whether the upload-save loop,
the audio conversion, and the rest of the `try` body (transcription,
empty-transcript check, extraction, artifact generation, formatting)
complete or raise. -/
structure Scenario where
  saveOutcome : Outcome
  convertOutcome : Outcome
  restOutcome : Outcome
deriving DecidableEq, Repr

/-- The `finally` block of `summarize_meeting`: unlink `tmp_path` if it
exists, and unlink `wav_path` if the name is bound (`"wav_path" in
locals()`) and the file exists. -/
def cleanupFinally (fs : FState) (wavBound : Bool) : FState :=
  { tmp := false
  , wav := if wavBound && fs.wav then false else fs.wav }

/-- Temp-file lifecycle of `summarize_meeting`.  `open(tmp_path, "wb")`
creates the temp file before the `try` block; an exception in the chunk
loop therefore propagates without any cleanup.  Everything from
`convert_to_wav` on happens inside `try ... finally`, so the `finally`
cleanup runs on those paths regardless of outcome. -/
def summarize_files (sc : Scenario) : FState :=
  let afterOpen : FState := { tmp := true, wav := false }
  match sc.saveOutcome with
  | .exn => afterOpen
  | .ok =>
    match sc.convertOutcome with
    | .exn => cleanupFinally afterOpen false
    | .ok =>
      let afterConvert : FState := { tmp := true, wav := true }
      cleanupFinally afterConvert true

/-- The translation gate of `summarize_meeting`:
`if target_lang and target_lang.lower() not in ["none", "original", "auto"]`.
`target_lang` is an optional form field (`None` when omitted). -/
def translationRequested (target_lang : Option String) : Bool :=
  match target_lang with
  | none => false
  | some tl =>
    tl ≠ "" && !(["none", "original", "auto"].contains (pyLower tl))

/-- The `translated_summary` response field: `None` unless the gate
passes, in which case `gemini_translate_summary` is called. -/
def summarize_translated_summary (summary : String)
    (target_lang : Option String) (modelAvailable : Bool)
    (callResult : Option String) : Option String :=
  if translationRequested target_lang then
    some (gemini_translate_summary summary (target_lang.getD "")
      modelAvailable callResult)
  else none

/-- The two-tier extraction step of `summarize_meeting`, returning the
`note` response field together with the record used downstream.  Tier 1
(`gemini_extract_structured`) either returns a parsed-and-defaulted
object or raises with message `e`; on the raise the handler sets the
diagnostic note and falls back to `local_extract`. -/
def summarize_extraction (transcript : String)
    (tier1 : Except String JObj) : String × (JObj ⊕ StructuredRecord) :=
  match tier1 with
  | .ok parsed => ("", .inl parsed)
  | .error e =>
    ("Note: Gemini failed, using local extraction instead. (" ++ e ++ ")",
     .inr (local_extract transcript))

/-! ## Properties of `dedupFirst` -/

theorem mem_dedupFirstAux {y : String} :
    ∀ {l seen : List String}, y ∈ dedupFirstAux seen l → y ∈ l ∧ y ∉ seen := by
  intro l
  induction l with
  | nil => intro seen h; simp [dedupFirstAux] at h
  | cons x xs ih =>
    intro seen h
    by_cases hx : x ∈ seen
    · simp only [dedupFirstAux, if_pos hx] at h
      rcases ih h with ⟨h1, h2⟩
      exact ⟨List.mem_cons_of_mem _ h1, h2⟩
    · simp only [dedupFirstAux, if_neg hx] at h
      rcases List.mem_cons.mp h with rfl | h'
      · exact ⟨List.mem_cons_self _ _, hx⟩
      · rcases ih h' with ⟨h1, h2⟩
        refine ⟨List.mem_cons_of_mem _ h1, fun hs => h2 ?_⟩
        exact List.mem_cons_of_mem _ hs

theorem mem_dedupFirstAux_iff {y : String} :
    ∀ {l seen : List String}, y ∈ dedupFirstAux seen l ↔ (y ∈ l ∧ y ∉ seen) := by
  intro l
  induction l with
  | nil => intro seen; simp [dedupFirstAux]
  | cons x xs ih =>
    intro seen
    constructor
    · exact mem_dedupFirstAux
    · rintro ⟨hmem, hseen⟩
      by_cases hx : x ∈ seen
      · simp only [dedupFirstAux, if_pos hx]
        rcases List.mem_cons.mp hmem with rfl | h'
        · exact absurd hx hseen
        · exact ih.mpr ⟨h', hseen⟩
      · simp only [dedupFirstAux, if_neg hx]
        rcases List.mem_cons.mp hmem with rfl | h'
        · exact List.mem_cons_self _ _
        · by_cases hxy : y = x
          · subst hxy; exact List.mem_cons_self _ _
          · refine List.mem_cons_of_mem _ (ih.mpr ⟨h', ?_⟩)
            intro hc
            rcases List.mem_cons.mp hc with h | h
            · exact hxy h
            · exact hseen h

theorem dedupFirstAux_nodup :
    ∀ (l seen : List String), (dedupFirstAux seen l).Nodup := by
  intro l
  induction l with
  | nil => intro seen; simp [dedupFirstAux]
  | cons x xs ih =>
    intro seen
    by_cases hx : x ∈ seen
    · simpa [dedupFirstAux, if_pos hx] using ih seen
    · simp only [dedupFirstAux, if_neg hx]
      refine List.nodup_cons.mpr ⟨fun hc => ?_, ih (x :: seen)⟩
      exact (mem_dedupFirstAux hc).2 (List.mem_cons_self _ _)

theorem dedupFirstAux_sublist :
    ∀ (l seen : List String), List.Sublist (dedupFirstAux seen l) l := by
  intro l
  induction l with
  | nil => intro seen; simp [dedupFirstAux]
  | cons x xs ih =>
    intro seen
    by_cases hx : x ∈ seen
    · simp only [dedupFirstAux, if_pos hx]
      exact (ih seen).trans (List.sublist_cons_self x xs)
    · simp only [dedupFirstAux, if_neg hx]
      exact List.Sublist.cons₂ x (ih (x :: seen))

theorem dedupFirst_nodup (l : List String) : (dedupFirst l).Nodup :=
  dedupFirstAux_nodup l []

theorem dedupFirst_sublist (l : List String) : List.Sublist (dedupFirst l) l :=
  dedupFirstAux_sublist l []

theorem mem_dedupFirst {y : String} {l : List String} :
    y ∈ dedupFirst l ↔ y ∈ l := by
  unfold dedupFirst
  rw [mem_dedupFirstAux_iff]
  simp

theorem dedupFirst_head? (l : List String) : (dedupFirst l).head? = l.head? := by
  cases l with
  | nil => rfl
  | cons x xs => simp [dedupFirst, dedupFirstAux]

/-! ## Properties of `stripChars` / `stripStr` -/

theorem dropWhile_idem (p : α → Bool) :
    ∀ l : List α, List.dropWhile p (List.dropWhile p l) = List.dropWhile p l := by
  intro l
  induction l with
  | nil => rfl
  | cons a l ih =>
    rw [List.dropWhile_cons]
    by_cases h : p a
    · simp [h, ih]
    · simp [List.dropWhile_cons, h]

theorem head?_dropWhile_false (p : α → Bool) :
    ∀ (l : List α) (a : α), (List.dropWhile p l).head? = some a → p a = false := by
  intro l
  induction l with
  | nil => intro a h; simp at h
  | cons x xs ih =>
    intro a h
    rw [List.dropWhile_cons] at h
    by_cases hx : p x
    · rw [if_pos hx] at h; exact ih a h
    · rw [if_neg hx] at h
      simp only [List.head?_cons, Option.some.injEq] at h
      subst h
      exact Bool.not_eq_true _ ▸ (by simpa using hx)

theorem dropWhile_eq_self_of_head (p : α → Bool) (l : List α)
    (h : ∀ a, l.head? = some a → p a = false) : List.dropWhile p l = l := by
  cases l with
  | nil => rfl
  | cons x xs =>
    rw [List.dropWhile_cons, if_neg]
    simp [h x rfl]

theorem dropWhile_stripChars (l : List Char) :
    (stripChars l).dropWhile isPySpace = stripChars l := by
  apply dropWhile_eq_self_of_head
  intro a ha
  unfold stripChars at ha
  set A := l.dropWhile isPySpace with hA
  set B := A.reverse.dropWhile isPySpace with hB
  rcases hBnil : B with _ | ⟨b, bs⟩
  · rw [hBnil] at ha; simp at ha
  · have hBne : B ≠ [] := by rw [hBnil]; simp
    have h1 : B.reverse.head? = B.getLast? := by
      rw [← List.getLast?_reverse B.reverse, List.reverse_reverse]
    have h2 : B.getLast? = A.reverse.getLast? := by
      have hsuff : B <:+ A.reverse := hB ▸ List.dropWhile_suffix _
      rcases hsuff with ⟨t, ht⟩
      rw [← ht]
      exact (List.getLast?_append_of_ne_nil t hBne).symm
    have h3 : A.reverse.getLast? = A.head? := List.getLast?_reverse A
    rw [h1, h2, h3] at ha
    exact head?_dropWhile_false isPySpace l a (hA ▸ ha)

theorem stripChars_idem (l : List Char) :
    stripChars (stripChars l) = stripChars l := by
  unfold stripChars
  rw [show ((l.dropWhile isPySpace).reverse.dropWhile isPySpace).reverse
        = stripChars l from rfl]
  rw [dropWhile_stripChars l]
  unfold stripChars
  rw [List.reverse_reverse, dropWhile_idem]

theorem stripStr_idem (s : String) : stripStr (stripStr s) = stripStr s := by
  unfold stripStr
  exact congrArg String.mk (stripChars_idem s.data)

/-! ## Properties of `hasPre` / `occursIn` / `catMap` -/

theorem hasPre_append (n : List Char) :
    ∀ h x, hasPre n h = true → hasPre n (h ++ x) = true := by
  induction n with
  | nil => intro h x _; rfl
  | cons a n ih =>
    intro h x hp
    cases h with
    | nil => simp [hasPre] at hp
    | cons b h' =>
      simp only [hasPre, Bool.and_eq_true] at hp
      simp only [List.cons_append, hasPre, Bool.and_eq_true]
      exact ⟨hp.1, ih h' x hp.2⟩

theorem occursIn_of_hasPre {n h : List Char} (hp : hasPre n h = true) :
    occursIn n h = true := by
  cases h with
  | nil => simpa [occursIn] using hp
  | cons c h' => simp [occursIn, hp]

theorem occursIn_append_left {n : List Char} :
    ∀ {h} (x), occursIn n h = true → occursIn n (h ++ x) = true := by
  intro h
  induction h with
  | nil =>
    intro x ho
    simp only [occursIn] at ho
    exact occursIn_of_hasPre (hasPre_append n [] x ho)
  | cons c h' ih =>
    intro x ho
    simp only [occursIn, Bool.or_eq_true] at ho
    rcases ho with hp | ho'
    · exact occursIn_of_hasPre (hasPre_append n (c :: h') x hp)
    · simp only [List.cons_append, occursIn, Bool.or_eq_true]
      exact Or.inr (ih x ho')

theorem occursIn_append_right {n : List Char} (a : List Char) {h : List Char}
    (ho : occursIn n h = true) : occursIn n (a ++ h) = true := by
  induction a with
  | nil => simpa using ho
  | cons c a' ih =>
    simp only [List.cons_append, occursIn, Bool.or_eq_true]
    exact Or.inr ih

/-- Substring test on strings (Python `n in h`). -/
def occursInStr (n h : String) : Bool := occursIn n.data h.data

theorem occursInStr_append_right (a : String) {n h : String}
    (ho : occursInStr n h = true) : occursInStr n (a ++ h) = true := by
  unfold occursInStr at *
  rw [String.data_append]
  exact occursIn_append_right a.data ho

theorem occursInStr_append_left (x : String) {n h : String}
    (ho : occursInStr n h = true) : occursInStr n (h ++ x) = true := by
  unfold occursInStr at *
  rw [String.data_append]
  exact occursIn_append_left x.data ho

theorem mem_catMap {f : α → List β} {y : β} :
    ∀ {l : List α}, y ∈ catMap f l ↔ ∃ x ∈ l, y ∈ f x := by
  intro l
  induction l with
  | nil => simp [catMap]
  | cons x xs ih =>
    simp only [catMap, List.mem_append, ih, List.mem_cons]
    constructor
    · rintro (h | ⟨x', hx', hy⟩)
      · exact ⟨x, Or.inl rfl, h⟩
      · exact ⟨x', Or.inr hx', hy⟩
    · rintro ⟨x', rfl | hx', hy⟩
      · exact Or.inl hy
      · exact Or.inr ⟨x', hx', hy⟩

theorem length_filterMap_eq_countP (f : α → Option β) :
    ∀ l : List α, (l.filterMap f).length = l.countP (fun x => (f x).isSome) := by
  intro l
  induction l with
  | nil => rfl
  | cons x xs ih =>
    rcases hfx : f x with _ | b
    · rw [List.filterMap_cons_none hfx, List.countP_cons]
      simp [hfx, ih]
    · rw [List.filterMap_cons_some hfx, List.countP_cons]
      simp [hfx, ih]

/-! ## Properties of `setdefault` / `lookupKey` -/

theorem hasKey_setdefault_self (d : JObj) (k : String) (v : JValue) :
    hasKey (setdefault d k v) k = true := by
  unfold setdefault hasKey
  by_cases h : d.any (fun kv => kv.1 = k)
  · simp [h]
  · simp [h, List.any_append]

theorem hasKey_setdefault_other (d : JObj) (k k' : String) (v : JValue)
    (hne : k' ≠ k) : hasKey (setdefault d k v) k' = hasKey d k' := by
  unfold setdefault hasKey
  by_cases h : d.any (fun kv => kv.1 = k)
  · simp [h]
  · rw [if_neg (by simp [h]), List.any_append]
    simp [Ne.symm hne]

theorem hasKey_setdefault_mono (d : JObj) (k k' : String) (v : JValue)
    (hk : hasKey d k' = true) : hasKey (setdefault d k v) k' = true := by
  unfold setdefault
  by_cases h : d.any (fun kv => kv.1 = k)
  · simpa [setdefault, h] using hk
  · unfold hasKey at *
    simp [h, List.any_append, hk]

theorem lookup_setdefault_absent (d : JObj) (k : String) (v : JValue)
    (h : hasKey d k = false) : lookupKey (setdefault d k v) k = some v := by
  unfold setdefault lookupKey
  unfold hasKey at h
  rw [if_neg (by simp [h]), List.find?_append]
  have hfind : d.find? (fun kv => kv.1 = k) = none := by
    rw [List.find?_eq_none]
    intro kv hkv hkvk
    have : d.any (fun kv => kv.1 = k) = true :=
      List.any_eq_true.mpr ⟨kv, hkv, hkvk⟩
    rw [h] at this
    exact Bool.false_ne_true this
  simp [hfind, List.find?]

theorem lookup_setdefault_preserved (d : JObj) (k k' : String) (v : JValue)
    (hk : hasKey d k' = true) :
    lookupKey (setdefault d k v) k' = lookupKey d k' := by
  unfold setdefault
  by_cases h : d.any (fun kv => kv.1 = k)
  · simp [h]
  · simp only [hasKey] at hk
    rw [if_neg (by simp [h])]
    unfold lookupKey
    rw [List.find?_append]
    rcases List.any_eq_true.mp hk with ⟨kv, hkv, hkvk⟩
    have : (d.find? (fun kv => kv.1 = k')).isSome = true := by
      rw [List.find?_isSome]
      exact ⟨kv, hkv, hkvk⟩
    rcases Option.isSome_iff_exists.mp this with ⟨x, hx⟩
    simp [hx]

/-! ## Bridging lemmas for `local_extract` -/

/-- The pre-deduplication deadline list of `local_extract`, in append
order: for each sentence, first the per-task-pattern appends, then the
sentence-level scan. -/
def rawDeadlines (text : String) : List String :=
  catMap (fun s => sentenceTaskDeadlines s ++ sentenceDeadlines s)
    (splitSentences text)

/-- The pre-deduplication action-point list of `local_extract`. -/
def rawActionPoints (text : String) : List String :=
  (splitSentences text).filter isActionPoint

theorem local_extract_action_points (text : String) :
    (local_extract text).action_points = dedupFirst (rawActionPoints text) := rfl

theorem local_extract_deadlines (text : String) :
    (local_extract text).deadlines = dedupFirst (rawDeadlines text) := rfl

theorem local_extract_tasks (text : String) :
    (local_extract text).tasks = catMap sentenceTasks (splitSentences text) := rfl

theorem local_extract_speakers (text : String) :
    (local_extract text).speakers = [] := rfl

theorem local_extract_summary (text : String) :
    (local_extract text).summary =
      (if stripStr (joinSpace ((splitSentences text).take 3)) = ""
       then "No summary available."
       else stripStr (joinSpace ((splitSentences text).take 3))) := rfl

theorem sentenceTasks_task_strip {s : String} {t : Task}
    (ht : t ∈ sentenceTasks s) : ∃ raw, t.task = stripStr raw := by
  unfold sentenceTasks at ht
  rcases List.mem_filterMap.mp ht with ⟨pat, _, hfm⟩
  rcases hmap : pySearch pat s with _ | r
  · rw [hmap] at hfm; simp at hfm
  · rw [hmap] at hfm
    simp only [Option.map_some', Option.some.injEq] at hfm
    subst hfm
    exact ⟨groupStr s r.2.2 2, rfl⟩

/-! ## Claim theorems -/

/-- C5 (confirmed): on the transcript "Priya will send the report by
Friday. The team agreed on the new logo.", the tier-2 fallback extractor
produces exactly one Task, with assignee "Priya", task text containing
"send the report", and deadline "by Friday"; it includes "by Friday" in
the record-level deadlines list; and it includes the first sentence in
`action_points`. -/
theorem C5_concrete_transcript :
    (local_extract "Priya will send the report by Friday. The team agreed on the new logo.").tasks =
      [{ speaker := "Priya", assignee := "Priya",
         task := "send the report by Friday", deadline := some "by Friday",
         source := "Priya will send the report by Friday." }] ∧
    occursInStr "send the report" "send the report by Friday" = true ∧
    "by Friday" ∈
      (local_extract "Priya will send the report by Friday. The team agreed on the new logo.").deadlines ∧
    "Priya will send the report by Friday." ∈
      (local_extract "Priya will send the report by Friday. The team agreed on the new logo.").action_points := by
  decide

/-- C1 counterexample: the claim "at most one Task is emitted per
sentence; remaining task patterns are not evaluated after the first
match" is false.  The transcript "Tom assigned to Bob will review the
doc." is a single sentence matched by both the first and the third task
pattern (the pattern loop has no `break`), so two Tasks are emitted for
this one sentence. -/
theorem C1_counterexample :
    (splitSentences "Tom assigned to Bob will review the doc.").length = 1 ∧
    (local_extract "Tom assigned to Bob will review the doc.").tasks.length = 2 := by
  decide

/-- C1 (amended): for every sentence, every task pattern is evaluated
(in declared order) and each matching pattern emits exactly one Task, so
a sentence emits as many Tasks as task patterns matching it; the inner
deadline scan attached to a task stops at the first matching deadline
pattern, while the sentence-level deadline scan collects a match from
every matching deadline pattern without short-circuiting. -/
theorem C1_pattern_order (text s : String) :
    (local_extract text).tasks = catMap sentenceTasks (splitSentences text) ∧
    (sentenceTasks s).length =
      TASK_PATTERNS.countP (fun pat => (pySearch pat s).isSome) ∧
    (sentenceDeadlines s).length =
      DEADLINE_PATTERNS.countP (fun dp => (pySearch dp s).isSome) ∧
    firstDeadline s =
      DEADLINE_PATTERNS.findSome? (fun dp =>
        (pySearch dp s).map fun r => sliceStr s r.1 r.2.1) := by
  refine ⟨rfl, ?_, ?_, rfl⟩
  · unfold sentenceTasks
    rw [length_filterMap_eq_countP]
    congr 1
    funext pat
    cases pySearch pat s <;> simp
  · unfold sentenceDeadlines
    rw [length_filterMap_eq_countP]
    congr 1
    funext dp
    cases pySearch dp s <;> simp

/-- C4 counterexample: the claim "every emitted Task has non-empty
trimmed task text" is false.  On the transcript "Priya will  " (two
trailing blanks) the first task pattern matches with the lazy clause
`(.+?)` capturing a single space, and `strip()` turns it into the empty
string, so a Task with empty task text is emitted. -/
theorem C4_counterexample :
    ((local_extract "Priya will  ").tasks.map Task.task) = [""] := by
  decide

/-- C4 (amended): the tier-2 fallback extractor is total and returns a
well-formed record — the summary is non-empty (falling back to the
sentinel "No summary available."), the speakers list is empty, and every
emitted Task's text is a trimmed string (`strip` of the captured clause,
hence fixed by `strip`) — but the task text may be empty when the
captured clause consists only of whitespace. -/
theorem C4_total_wellformed (text : String) :
    (local_extract text).summary ≠ "" ∧
    (local_extract text).speakers = [] ∧
    ((local_extract text).tasks.all fun t => stripStr t.task == t.task) = true := by
  refine ⟨?_, rfl, ?_⟩
  · rw [local_extract_summary]
    by_cases h : stripStr (joinSpace ((splitSentences text).take 3)) = ""
    · rw [if_pos h]
      decide
    · rw [if_neg h]
      exact h
  · rw [List.all_eq_true]
    intro t ht
    rw [local_extract_tasks] at ht
    rcases mem_catMap.mp ht with ⟨s, _, hs⟩
    rcases sentenceTasks_task_strip hs with ⟨raw, hraw⟩
    rw [hraw, stripStr_idem]
    exact beq_self_eq_true _

/-- C9 (confirmed): for every transcript, `action_points` and
`deadlines` are `dict.fromkeys`-style de-duplications of the raw
collected lists: no duplicates remain, the result is a sublist of the raw
list (so first-seen order is preserved), membership is unchanged, and the
first raw element stays first. -/
theorem C9_dedup_first_seen (text : String) :
    (local_extract text).action_points.Nodup ∧
    List.Sublist (local_extract text).action_points (rawActionPoints text) ∧
    (∀ x, x ∈ (local_extract text).action_points ↔ x ∈ rawActionPoints text) ∧
    (local_extract text).action_points.head? = (rawActionPoints text).head? ∧
    (local_extract text).deadlines.Nodup ∧
    List.Sublist (local_extract text).deadlines (rawDeadlines text) ∧
    (∀ x, x ∈ (local_extract text).deadlines ↔ x ∈ rawDeadlines text) ∧
    (local_extract text).deadlines.head? = (rawDeadlines text).head? := by
  rw [local_extract_action_points, local_extract_deadlines]
  exact ⟨dedupFirst_nodup _, dedupFirst_sublist _, fun x => mem_dedupFirst,
    dedupFirst_head? _, dedupFirst_nodup _, dedupFirst_sublist _,
    fun x => mem_dedupFirst, dedupFirst_head? _⟩

theorem hasPre_ne_nil {a : Char} {n h : List Char}
    (hp : hasPre (a :: n) h = true) : h ≠ [] := by
  intro hnil
  subst hnil
  simp [hasPre] at hp

theorem note_has_diag_start (e : String) :
    strStarts "Note: Gemini failed"
      ("Note: Gemini failed, using local extraction instead. (" ++ e ++ ")") =
      true := by
  unfold strStarts
  rw [String.data_append, String.data_append]
  exact hasPre_append _ _ _ (hasPre_append _ _ _ (by decide))

/-- C10 (confirmed): the `note` response field is always a string: it is
the empty string exactly when tier-1 extraction succeeded, and on a
tier-1 failure it is non-empty, starts with "Note: Gemini failed", and
the record used downstream is the tier-2 fallback record. -/
theorem C10_note_field (transcript : String) (tier1 : Except String JObj) :
    ((summarize_extraction transcript tier1).1 = "" ↔ ∃ p, tier1 = .ok p) ∧
    (∀ e, tier1 = .error e →
      strStarts "Note: Gemini failed" (summarize_extraction transcript tier1).1 = true ∧
      (summarize_extraction transcript tier1).1 ≠ "" ∧
      (summarize_extraction transcript tier1).2 = .inr (local_extract transcript)) := by
  cases tier1 with
  | ok p =>
    refine ⟨by simp [summarize_extraction], ?_⟩
    intro e he
    exact absurd he (by simp)
  | error e0 =>
    constructor
    · constructor
      · intro h
        exfalso
        have hs := note_has_diag_start e0
        have hne : (summarize_extraction transcript (Except.error e0)).1 ≠ "" := by
          show ("Note: Gemini failed, using local extraction instead. (" ++ e0 ++ ")") ≠ ""
          intro hnil
          rw [hnil] at hs
          unfold strStarts at hs
          exact absurd (hasPre_ne_nil hs) (by intro hh; exact hh rfl)
        exact hne h
      · rintro ⟨p, hp⟩
        exact absurd hp (by simp)
    · intro e he
      have he' : e0 = e := by
        injection he
      subst he'
      refine ⟨note_has_diag_start e0, ?_, rfl⟩
      intro hnil
      have hs := note_has_diag_start e0
      rw [show ("Note: Gemini failed, using local extraction instead. (" ++ e0 ++ ")") = (summarize_extraction transcript (Except.error e0)).1 from rfl, hnil] at hs
      unfold strStarts at hs
      exact absurd (hasPre_ne_nil hs) (by intro hh; exact hh rfl)

theorem C10_note_field_witness :
    strStarts "Note: Gemini failed"
      (summarize_extraction "" (Except.error "boom")).1 = true :=
  ((C10_note_field "" (Except.error "boom")).2 "boom" rfl).1

/-- C7 (confirmed): translation is gated on a target language that is
present, non-empty, and (case-insensitively) outside
{"none", "original", "auto"}; when the gate fails, `translated_summary`
is `none` regardless of any call outcome (no call is issued); when the
gate passes, the field is the translator's result; and the translator
returns the original summary unchanged when the call raises or yields
empty text. -/
theorem C7_translation_gate :
    (∀ (summary : String) (target_lang : Option String) (mv : Bool)
        (cr : Option String),
      translationRequested target_lang = false →
        summarize_translated_summary summary target_lang mv cr = none) ∧
    (∀ tl : Option String, translationRequested tl = true ↔
      ∃ t, tl = some t ∧ t ≠ "" ∧
        (["none", "original", "auto"].contains (pyLower t)) = false) ∧
    (∀ (summary t : String) (mv : Bool) (cr : Option String),
      translationRequested (some t) = true →
        summarize_translated_summary summary (some t) mv cr =
          some (gemini_translate_summary summary t mv cr)) ∧
    (∀ (summary target_lang : String) (mv : Bool),
      gemini_translate_summary summary target_lang mv none = summary ∧
      gemini_translate_summary summary target_lang mv (some "") = summary) := by
  refine ⟨?_, ?_, ?_, ?_⟩
  · intro summary target_lang mv cr hgate
    unfold summarize_translated_summary
    rw [hgate]
    simp
  · intro tl
    cases tl with
    | none => simp [translationRequested]
    | some t =>
      unfold translationRequested
      rw [Bool.and_eq_true]
      constructor
      · rintro ⟨ht, hc⟩
        refine ⟨t, rfl, by simpa using ht, by simpa using hc⟩
      · rintro ⟨t', ht', hne, hc⟩
        injection ht' with ht''
        subst ht''
        exact ⟨by simpa using hne, by simpa using hc⟩
  · intro summary t mv cr hgate
    unfold summarize_translated_summary
    rw [hgate]
    simp [Option.getD]
  · intro summary target_lang mv
    constructor
    · unfold gemini_translate_summary
      cases mv <;> by_cases h : target_lang = "" <;> simp [h]
    · unfold gemini_translate_summary
      have hse : stripStr "" = "" := rfl
      cases mv <;> by_cases h : target_lang = "" <;> simp [h, hse]

theorem C7_translation_gate_witness :
    summarize_translated_summary "S" (some "Original") true (some "T") = none :=
  C7_translation_gate.1 "S" (some "Original") true (some "T") (by decide)

/-- C3 (code bug): the source defines `MAX_UPLOAD_BYTES` ("Upload limit
(2GB)") but never checks it: the upload-save phase writes every chunk and
proceeds to the pipeline even for a payload of 2049 one-MiB chunks
(2 GiB + 1 MiB), which exceeds the declared limit. -/
theorem C3_oversized_upload_processed :
    summarize_upload_phase (List.replicate 2049 1048576) true =
      UploadOutcome.proceed (2049 * 1048576) ∧
    MAX_UPLOAD_BYTES < 2049 * 1048576 := by
  constructor
  · unfold summarize_upload_phase
    rw [if_neg (by simp)]
    have hsum : ∀ (n acc : Nat),
        (List.replicate n 1048576).foldl (· + ·) acc = acc + n * 1048576 := by
      intro n
      induction n with
      | zero => intro acc; simp
      | succ m ih =>
        intro acc
        rw [List.replicate_succ, List.foldl_cons, ih]
        ring
    rw [hsum 2049 0]
  · decide

/-- C8 counterexample: the claim "temp files are removed on every exit
path, including any intermediate exception" is false.  The upload-save
chunk loop runs before the `try`/`finally`; if it raises after
`open(tmp_path, "wb")` created the file, the handler exits with the temp
file still present. -/
theorem C8_counterexample :
    (summarize_files
      { saveOutcome := .exn, convertOutcome := .ok, restOutcome := .ok }).tmp =
      true := by
  decide

/-- C8 (amended): on every request whose upload-save loop completes, the
`finally` block removes both the uploaded temp file and the converted WAV
file, whatever the outcome of conversion, transcription, extraction, or
formatting. -/
theorem C8_cleanup_after_save (sc : Scenario) (h : sc.saveOutcome = .ok) :
    summarize_files sc = { tmp := false, wav := false } := by
  rcases sc with ⟨so, co, ro⟩
  cases so with
  | ok => cases co <;> rfl
  | exn => simp at h

theorem C8_cleanup_after_save_witness :
    summarize_files { saveOutcome := .ok, convertOutcome := .exn, restOutcome := .ok } =
      { tmp := false, wav := false } :=
  C8_cleanup_after_save
    { saveOutcome := .ok, convertOutcome := .exn, restOutcome := .ok } rfl

/-- C6 (confirmed): for every model response whose bracket-delimited
substring parses as a JSON object `d`, the record returned by tier-1
contains all five keys; a key omitted by the model is defaulted
("summary" to the sentinel string, the other four to empty lists), and a
key supplied by the model keeps its value. -/
theorem C6_five_key_defaulting (d : JObj) :
    (FIVE_KEYS.all fun k => hasKey (gemini_extract_structured_defaults d) k) = true ∧
    (∀ k, k ∈ FIVE_KEYS → hasKey d k = false →
      lookupKey (gemini_extract_structured_defaults d) k = some (defaultFor k)) ∧
    (∀ k, hasKey d k = true →
      lookupKey (gemini_extract_structured_defaults d) k = lookupKey d k) := by
  unfold gemini_extract_structured_defaults
  set d1 := setdefault d "summary" (.str "No summary available.") with hd1
  set d2 := setdefault d1 "action_points" (.arr []) with hd2
  set d3 := setdefault d2 "tasks" (.arr []) with hd3
  set d4 := setdefault d3 "deadlines" (.arr []) with hd4
  refine ⟨?_, ?_, ?_⟩
  · have h1 : hasKey d1 "summary" = true := hasKey_setdefault_self ..
    have h2 : hasKey d2 "action_points" = true := hasKey_setdefault_self ..
    have h3 : hasKey d3 "tasks" = true := hasKey_setdefault_self ..
    have h4 : hasKey d4 "deadlines" = true := hasKey_setdefault_self ..
    simp only [FIVE_KEYS, List.all_cons, List.all_nil, Bool.and_eq_true]
    refine ⟨?_, ?_, ?_, ?_, ?_, trivial⟩
    · exact hasKey_setdefault_mono _ _ _ _
        (hd4 ▸ hasKey_setdefault_mono _ _ _ _
          (hd3 ▸ hasKey_setdefault_mono _ _ _ _
            (hd2 ▸ hasKey_setdefault_mono _ _ _ _ h1)))
    · exact hasKey_setdefault_mono _ _ _ _
        (hd4 ▸ hasKey_setdefault_mono _ _ _ _
          (hd3 ▸ hasKey_setdefault_mono _ _ _ _ h2))
    · exact hasKey_setdefault_mono _ _ _ _
        (hd4 ▸ hasKey_setdefault_mono _ _ _ _ h3)
    · exact hasKey_setdefault_mono _ _ _ _ h4
    · exact hasKey_setdefault_self ..
  · intro k hk hdk
    have hmem : k = "summary" ∨ k = "action_points" ∨ k = "tasks" ∨
        k = "deadlines" ∨ k = "speakers" := by
      simpa [FIVE_KEYS] using hk
    rcases hmem with rfl | rfl | rfl | rfl | rfl
    · have habs : lookupKey d1 "summary" = some (defaultFor "summary") := by
        rw [hd1]
        exact lookup_setdefault_absent _ _ _ hdk
      have hk1 : hasKey d1 "summary" = true := hasKey_setdefault_self ..
      have hk2 : hasKey d2 "summary" = true :=
        hd2 ▸ hasKey_setdefault_mono _ _ _ _ hk1
      have hk3 : hasKey d3 "summary" = true :=
        hd3 ▸ hasKey_setdefault_mono _ _ _ _ hk2
      have hk4 : hasKey d4 "summary" = true :=
        hd4 ▸ hasKey_setdefault_mono _ _ _ _ hk3
      rw [lookup_setdefault_preserved _ _ _ _ hk4, hd4,
        lookup_setdefault_preserved _ _ _ _ hk3, hd3,
        lookup_setdefault_preserved _ _ _ _ hk2, hd2,
        lookup_setdefault_preserved _ _ _ _ hk1]
      exact habs
    · have hdk1 : hasKey d1 "action_points" = false := by
        rw [hd1, hasKey_setdefault_other _ _ _ _ (by decide)]
        exact hdk
      have habs : lookupKey d2 "action_points" = some (defaultFor "action_points") := by
        rw [hd2]
        exact lookup_setdefault_absent _ _ _ hdk1
      have hk2 : hasKey d2 "action_points" = true := hasKey_setdefault_self ..
      have hk3 : hasKey d3 "action_points" = true :=
        hd3 ▸ hasKey_setdefault_mono _ _ _ _ hk2
      have hk4 : hasKey d4 "action_points" = true :=
        hd4 ▸ hasKey_setdefault_mono _ _ _ _ hk3
      rw [lookup_setdefault_preserved _ _ _ _ hk4, hd4,
        lookup_setdefault_preserved _ _ _ _ hk3, hd3,
        lookup_setdefault_preserved _ _ _ _ hk2]
      exact habs
    · have hdk1 : hasKey d1 "tasks" = false := by
        rw [hd1, hasKey_setdefault_other _ _ _ _ (by decide)]
        exact hdk
      have hdk2 : hasKey d2 "tasks" = false := by
        rw [hd2, hasKey_setdefault_other _ _ _ _ (by decide)]
        exact hdk1
      have habs : lookupKey d3 "tasks" = some (defaultFor "tasks") := by
        rw [hd3]
        exact lookup_setdefault_absent _ _ _ hdk2
      have hk3 : hasKey d3 "tasks" = true := hasKey_setdefault_self ..
      have hk4 : hasKey d4 "tasks" = true :=
        hd4 ▸ hasKey_setdefault_mono _ _ _ _ hk3
      rw [lookup_setdefault_preserved _ _ _ _ hk4, hd4,
        lookup_setdefault_preserved _ _ _ _ hk3]
      exact habs
    · have hdk1 : hasKey d1 "deadlines" = false := by
        rw [hd1, hasKey_setdefault_other _ _ _ _ (by decide)]
        exact hdk
      have hdk2 : hasKey d2 "deadlines" = false := by
        rw [hd2, hasKey_setdefault_other _ _ _ _ (by decide)]
        exact hdk1
      have hdk3 : hasKey d3 "deadlines" = false := by
        rw [hd3, hasKey_setdefault_other _ _ _ _ (by decide)]
        exact hdk2
      have habs : lookupKey d4 "deadlines" = some (defaultFor "deadlines") := by
        rw [hd4]
        exact lookup_setdefault_absent _ _ _ hdk3
      have hk4 : hasKey d4 "deadlines" = true := hasKey_setdefault_self ..
      rw [lookup_setdefault_preserved _ _ _ _ hk4]
      exact habs
    · have hdk1 : hasKey d1 "speakers" = false := by
        rw [hd1, hasKey_setdefault_other _ _ _ _ (by decide)]
        exact hdk
      have hdk2 : hasKey d2 "speakers" = false := by
        rw [hd2, hasKey_setdefault_other _ _ _ _ (by decide)]
        exact hdk1
      have hdk3 : hasKey d3 "speakers" = false := by
        rw [hd3, hasKey_setdefault_other _ _ _ _ (by decide)]
        exact hdk2
      have hdk4 : hasKey d4 "speakers" = false := by
        rw [hd4, hasKey_setdefault_other _ _ _ _ (by decide)]
        exact hdk3
      exact lookup_setdefault_absent _ _ _ hdk4
  · intro k hk
    have m1 : hasKey d1 k = true := hd1 ▸ hasKey_setdefault_mono _ _ _ _ hk
    have m2 : hasKey d2 k = true := hd2 ▸ hasKey_setdefault_mono _ _ _ _ m1
    have m3 : hasKey d3 k = true := hd3 ▸ hasKey_setdefault_mono _ _ _ _ m2
    have m4 : hasKey d4 k = true := hd4 ▸ hasKey_setdefault_mono _ _ _ _ m3
    rw [lookup_setdefault_preserved _ _ _ _ m4, hd4,
      lookup_setdefault_preserved _ _ _ _ m3, hd3,
      lookup_setdefault_preserved _ _ _ _ m2, hd2,
      lookup_setdefault_preserved _ _ _ _ m1, hd1,
      lookup_setdefault_preserved _ _ _ _ hk]

theorem C6_five_key_defaulting_witness :
    lookupKey (gemini_extract_structured_defaults
      [("summary", JValue.str "kept")]) "tasks" = some (JValue.arr []) ∧
    lookupKey (gemini_extract_structured_defaults
      [("summary", JValue.str "kept")]) "summary" = some (JValue.str "kept") :=
  ⟨(C6_five_key_defaulting [("summary", JValue.str "kept")]).2.1 "tasks"
      (by decide) (by decide),
   (C6_five_key_defaulting [("summary", JValue.str "kept")]).2.2 "summary"
      (by decide)⟩

set_option maxRecDepth 8000 in
/-- C2 counterexample: the claim that every generation-failure sentinel
is suppressed is false for the model-unavailable sentinels.  When the
email artifact is "Gemini not available for email generation." (the
sentinel returned when the model handle is unavailable), the formatter's
check only looks for the "email generation failed" prefix, so it renders
the raw sentinel as the email draft and does not substitute the
explanatory line. -/
theorem C2_counterexample :
    gemini_generate_followup_email false (Except.ok "x") =
      "Gemini not available for email generation." ∧
    occursInStr "Gemini not available for email generation."
      (format_markdown_block
        { summary := some "S", action_points := none, tasks := none,
          deadlines := none }
        "Gemini not available for email generation." "Recap line") = true ∧
    occursInStr "Could not generate email."
      (format_markdown_block
        { summary := some "S", action_points := none, tasks := none,
          deadlines := none }
        "Gemini not available for email generation." "Recap line") = false := by
  decide

/-- C2 (amended): the formatter suppresses a section body and substitutes
an explanatory line exactly for the exception-path sentinels (and for
empty strings): an email input that is empty or starts
(case-insensitively) with "email generation failed" renders "Could not
generate email.", and a WhatsApp input that is empty or starts with
"whatsapp summary failed" renders "_No WhatsApp summary generated._";
the model-unavailable sentinels are echoed verbatim instead. -/
theorem C2_sentinel_suppression (data : FormatData) (e w : String)
    (he : e = "" ∨ strStarts "email generation failed" (pyLower e) = true)
    (hw : w = "" ∨ strStarts "whatsapp summary failed" (pyLower w) = true) :
    occursInStr "  - Could not generate email."
      (format_markdown_block data e w) = true ∧
    occursInStr "_No WhatsApp summary generated._"
      (format_markdown_block data e w) = true := by
  have hce : (decide (e ≠ "") &&
      !(strStarts "email generation failed" (pyLower e))) = false := by
    rcases he with rfl | hs
    · simp
    · simp [hs]
  have hcw : (decide (w ≠ "") &&
      !(strStarts "whatsapp summary failed" (pyLower w))) = false := by
    rcases hw with rfl | hs
    · simp
    · simp [hs]
  simp only [format_markdown_block, hce, hcw, Bool.false_eq_true, if_false]
  constructor
  · apply occursInStr_append_left
    apply occursInStr_append_left
    apply occursInStr_append_left
    apply occursInStr_append_left
    apply occursInStr_append_left
    apply occursInStr_append_left
    apply occursInStr_append_right
    decide
  · apply occursInStr_append_left
    apply occursInStr_append_left
    apply occursInStr_append_right
    decide

theorem C2_sentinel_suppression_witness :
    occursInStr "  - Could not generate email."
      (format_markdown_block
        { summary := none, action_points := none, tasks := none,
          deadlines := none }
        "Email generation failed: x" "") = true :=
  (C2_sentinel_suppression
    { summary := none, action_points := none, tasks := none, deadlines := none }
    "Email generation failed: x" "" (Or.inr (by decide)) (Or.inl rfl)).1
